import Mathlib

/-!
Verification of the channel-multiplexing layer of the pika AMQP client
(src/pika/channel.py) against its natural-language specification.

The Python classes `ChannelHandler` and `Channel` are shallowly embedded:
the three `frame_handler` closures (`_handle_method`, the header handler
made by `_make_header_handler`, and the body handler installed by
`_install_body_handler`) become the three constructors of `Continuation`;
dict-typed fields become association lists; calls into external
collaborators (the connection, lifecycle listeners, consumer callbacks,
reply callbacks) are recorded as `Event`s; Python exceptions become an
`Option PikaError` / `Except PikaError` component of each result, paired
with the post-raise state so that mutations already performed before a
raise are visible, exactly as they are in the Python object.
-/

namespace Pika

/-- Association-list lookup, mirroring Python `d[k]` / `k in d`. -/
def mapLookup {α β : Type} [DecidableEq α] : List (α × β) → α → Option β
  | [], _ => none
  | (k, v) :: rest, key => if k = key then some v else mapLookup rest key

/-- Association-list store, mirroring Python `d[k] = v` (replace or append). -/
def mapInsert {α β : Type} [DecidableEq α] : List (α × β) → α → β → List (α × β)
  | [], key, val => [(key, val)]
  | (k, v) :: rest, key, val =>
    if k = key then (key, val) :: rest else (k, v) :: mapInsert rest key val

/-- Association-list removal, mirroring Python `del d[k]`. -/
def mapErase {α β : Type} [DecidableEq α] : List (α × β) → α → List (α × β)
  | [], _ => []
  | (k, v) :: rest, key => if k = key then rest else (k, v) :: mapErase rest key

/-- Modelled from the spec: the protocol-schema collaborator (`pika.spec`,
absent from src) supplies method classes, each with a `NAME` string, an
`INDEX`, and a fixed content-bearing flag queried through
`spec.has_content(INDEX)`.  A `MethodKind` is one such method class. -/
structure MethodKind where
  index : Nat
  name : String
  hasContent : Bool
deriving DecidableEq, Repr

/-- Modelled from the spec: a default-constructible properties record
(`spec.BasicProperties`, absent from src). -/
structure Props where
  id : Nat := 0
deriving DecidableEq, Repr, Inhabited

/-- A protocol method object: its class (`MethodKind`), the optional
`consumer_tag` argument carried by Basic.Consume/ConsumeOk/Deliver, and the
content attached by `_set_content`. -/
structure Method where
  kind : MethodKind
  consumer_tag : Option String := none
  content : Option (Props × List Nat) := none
deriving DecidableEq, Repr

/-- Modelled from the spec: `method._set_content(properties, body)`
(from `pika.spec`, absent from src) attaches the properties and body to
the method object. -/
def set_content (m : Method) (props : Props) (body : List Nat) : Method :=
  { m with content := some (props, body) }

/-- The three frame record kinds of the codec collaborator:
`FrameMethod{method}`, `FrameHeader{properties, body_size}`,
`FrameBody{fragment}`.  Body bytes are modelled as `List Nat`. -/
inductive Frame
  | method (m : Method)
  | header (properties : Props) (body_size : Nat)
  | body (fragment : List Nat)
deriving DecidableEq, Repr

/-- The exceptions raised by channel.py (from pika.exceptions). -/
inductive PikaError
  | ChannelClosed (reason : Method)
  | UnexpectedFrameError (f : Frame)
  | BodyTooLongError
  | RecursiveOperationDetected (name : String)
  | DuplicateConsumerTag (tag : String)
  | UnknownConsumerTag (tag : String)
deriving DecidableEq, Repr

/-- Modelled from the spec: the reserved "not implemented" error code of the
protocol-schema collaborator (`spec.NOT_IMPLEMENTED`); AMQP 0-9-1 reserves
code 540 for it. -/
def NOT_IMPLEMENTED : Nat := 540

/-- Observable calls into external collaborators (the connection, the
lifecycle listeners, and the stored reply / async / consumer callbacks),
recorded in order of occurrence. -/
inductive Event
  | resetChannel (n : Nat)
  | stateChange (handlerId : Nat) (isOpen : Bool)
  | sendMethod (chan : Nat) (k : MethodKind)
  | sendPublish (chan : Nat) (exchange routing_key : String)
      (mandatory immediate : Bool) (props : Props) (body : List Nat)
  | replyInvoked (cbId : Nat) (m : Method)
  | asyncInvoked (handlerId : Nat) (m : Method)
      (hdr : Option (Props × Nat)) (body : Option (List Nat))
  | connClose (code : Nat) (msg : String)
deriving DecidableEq, Repr

/-- Defunctionalization of the `frame_handler` field: `expectMethod` is the
bound method `_handle_method`; `expectHeader m` is the closure produced by
`_make_header_handler` (capturing the method frame); `expectBody` is the
closure installed by `_install_body_handler`, capturing the method frame,
the header frame (`properties`, `body_size`), and the mutable cells
`seen_so_far` and `body_fragments`. -/
inductive Continuation
  | expectMethod
  | expectHeader (m : Method)
  | expectBody (m : Method) (properties : Props) (body_size : Nat)
      (seen_so_far : Nat) (body_fragments : List (List Nat))
deriving DecidableEq, Repr

/-- The mutable state of a `ChannelHandler`.  `async_map` and `reply_map`
store opaque handler/callback identities (`Nat`); invoking one is recorded
as an `Event`.  `channel_state_change_event` is modelled from the spec as
the list of registered lifecycle-listener identities (`pika.event.Event`,
absent from src: a set of handlers that `fire` invokes in order). -/
structure HandlerState where
  frame_handler : Continuation
  channel_close : Option Method
  async_map : List (MethodKind × Nat)
  reply_map : List (MethodKind × Nat)
  channel_state_change_event : List Nat
  channel_number : Nat
deriving DecidableEq, Repr

/-- A fully reassembled (method, header, body) triple handed to
`_handle_async`: `header` and `body` are `none` exactly when the method
carried no content (Python passes `None, None`). -/
structure Resolution where
  method : Method
  header : Option (Props × Nat)
  body : Option (List Nat)
deriving DecidableEq, Repr

/-- One step of the frame reassembler: the bodies of `_handle_method`,
`_make_header_handler`'s handler, and `_install_body_handler`'s handler and
`finish`, minus the `_handle_async` dispatch (returned as a `Resolution`
instead).  Returns the continuation left in `self.frame_handler`, the
resolved triple if `finish` ran, and the raised exception if any.  Note
that on `BodyTooLongError` the Python handler has already incremented
`seen_so_far` and appended the fragment, and `self.frame_handler` is left
unchanged (still the body handler): the returned continuation reflects
that. -/
def reassembly_step (c : Continuation) (f : Frame) :
    Continuation × Option Resolution × Option PikaError :=
  match c with
  | .expectMethod =>
    match f with
    | .method m =>
      if m.kind.hasContent then (.expectHeader m, none, none)
      else (.expectMethod, some ⟨m, none, none⟩, none)
    | _ => (.expectMethod, none, some (.UnexpectedFrameError f))
  | .expectHeader m =>
    match f with
    | .header props size =>
      if size = 0 then (.expectMethod, some ⟨m, some (props, size), some []⟩, none)
      else (.expectBody m props size 0 [], none, none)
    | _ => (.expectHeader m, none, some (.UnexpectedFrameError f))
  | .expectBody m props size seen frags =>
    match f with
    | .body frag =>
      let seen' := seen + frag.length
      let frags' := frags ++ [frag]
      if seen' = size then
        (.expectMethod, some ⟨m, some (props, size), some frags'.flatten⟩, none)
      else if size < seen' then
        (.expectBody m props size seen' frags', none, some .BodyTooLongError)
      else
        (.expectBody m props size seen' frags', none, none)
    | _ => (.expectBody m props size seen frags, none, some (.UnexpectedFrameError f))

/-- `ChannelHandler._handle_async`: reply correlation takes priority, then
the async map, else the whole connection is closed with NOT_IMPLEMENTED.
In the reply branch the single-use callback is looked up, removed from
`reply_map`, and then invoked (recorded as `Event.replyInvoked`) with the
method, to which content has been attached when a header was present. -/
def handle_async (s : HandlerState) (m : Method) (hdr : Option (Props × Nat))
    (body : Option (List Nat)) : HandlerState × List Event :=
  match mapLookup s.reply_map m.kind with
  | some cb =>
    let m' := match hdr with
      | some (p, _) => set_content m p (body.getD [])
      | none => m
    ({ s with reply_map := mapErase s.reply_map m.kind }, [.replyInvoked cb m'])
  | none =>
    match mapLookup s.async_map m.kind with
    | some h => (s, [.asyncInvoked h m hdr body])
    | none =>
      (s, [.connClose NOT_IMPLEMENTED ("Pika: method not implemented: " ++ m.kind.name)])

/-- Processing of one inbound frame by the current `frame_handler`: the
continuation update is installed first (in `finish`, Python assigns
`self.frame_handler = self._handle_method` before calling
`_handle_async`), then the resolved triple, if any, is dispatched. -/
def handle_frame (s : HandlerState) (f : Frame) :
    HandlerState × List Event × Option PikaError :=
  match reassembly_step s.frame_handler f with
  | (c', some r, _) =>
    let p := handle_async { s with frame_handler := c' } r.method r.header r.body
    (p.1, p.2, none)
  | (c', none, e) => ({ s with frame_handler := c' }, [], e)

/-- Feeding a list of frames through the reassembler alone (no dispatch),
collecting resolved triples, stopping at the first raised exception. -/
def run_reassembly (c : Continuation) :
    List Frame → Continuation × List Resolution × Option PikaError
  | [] => (c, [], none)
  | f :: fs =>
    match reassembly_step c f with
    | (c', r, some e) => (c', r.toList, some e)
    | (c', r, none) =>
      let p := run_reassembly c' fs
      (p.1, r.toList ++ p.2.1, p.2.2)

/-- `ChannelHandler._set_channel_close`: guarded by `if not
self.channel_close`; on the first close it stores the reason, releases the
channel number (`connection.reset_channel`), and fires every registered
lifecycle listener with `(self, False)`; later calls do nothing. -/
def set_channel_close (s : HandlerState) (c : Method) : HandlerState × List Event :=
  match s.channel_close with
  | none =>
    ({ s with channel_close := some c },
      .resetChannel s.channel_number ::
        s.channel_state_change_event.map (fun h => .stateChange h false))
  | some _ => (s, [])

/-- `ChannelHandler._async_channel_close`: marks the channel closed with the
received reason and unconditionally sends back `Channel.CloseOk` (whose
kind is passed in, since `pika.spec` is external). -/
def async_channel_close (s : HandlerState) (closeOk : MethodKind)
    (method_frame : Method) : HandlerState × List Event :=
  let p := set_channel_close s method_frame
  (p.1, p.2 ++ [.sendMethod s.channel_number closeOk])

/-- `ChannelHandler._ensure`: raises `ChannelClosed(self.channel_close)`
when the close reason is set. -/
def ensure_open (s : HandlerState) : Option PikaError :=
  match s.channel_close with
  | some c => some (.ChannelClosed c)
  | none => none

/-- `ChannelHandler._rpc`: `self._ensure()` and then delegation to
`connection._rpc` (external collaborator); the connection call's outcome
is abstracted as the `connOutcome` argument. -/
def rpc (s : HandlerState) (connOutcome : Except PikaError Method) :
    Except PikaError Method :=
  match s.channel_close with
  | some c => .error (.ChannelClosed c)
  | none => connOutcome

/-- The registration loop of `ChannelHandler.wait_for_reply`: for each
acceptable reply kind in order, raise `RecursiveOperationDetected(NAME)`
if it is already pending, else store the completion callback; on a raise,
the kinds already stored in earlier iterations remain stored. -/
def wait_register (s : HandlerState) (cbId : Nat) :
    List MethodKind → HandlerState × Option PikaError
  | [] => (s, none)
  | k :: rest =>
    if (mapLookup s.reply_map k).isSome then
      (s, some (.RecursiveOperationDetected k.name))
    else
      wait_register { s with reply_map := mapInsert s.reply_map k cbId } cbId rest

/-- Outcome of the blocking loop of `wait_for_reply`. -/
inductive WaitOutcome
  | replyReceived (m : Method)
  | closed (c : Method)
  | stillWaiting
deriving DecidableEq, Repr

/-- The `while True` loop of `wait_for_reply`: each iteration runs
`self._ensure()` (raising `ChannelClosed` if the close reason is set),
then `connection.drain_events()`, then returns the reply if the slot was
filled.  The external drain is abstracted as a trace: element `i` gives
the handler state and the reply slot after the `i`-th drain.  An exhausted
trace with the channel still open means the loop would keep polling
(`stillWaiting`). -/
def wait_loop (s : HandlerState) :
    List (HandlerState × Option Method) → WaitOutcome
  | [] =>
    match s.channel_close with
    | some c => .closed c
    | none => .stillWaiting
  | (s', r) :: rest =>
    match s.channel_close with
    | some c => .closed c
    | none =>
      match r with
      | some m => .replyReceived m
      | none => wait_loop s' rest

/-- The state owned by the `Channel` facade on top of its handler. -/
structure ChannelState where
  handler : HandlerState
  callbacks : List (String × Nat)
  next_consumer_tag : Nat
deriving DecidableEq, Repr

/-- A freshly constructed facade: empty consumer-callback mapping and tag
counter 0 (`Channel.__init__`). -/
def initialFacade (h : HandlerState) : ChannelState :=
  { handler := h, callbacks := [], next_consumer_tag := 0 }

/-- `Channel.basic_publish`: defaults the properties and sends the publish
method with its content straight through `connection.send_method`; there
is no closed-channel check and no reply wait. -/
def basic_publish (st : ChannelState) (exchange routing_key : String)
    (body : List Nat) (properties : Option Props)
    (mandatory immediate : Bool) : List Event :=
  let props := properties.getD default
  [.sendPublish st.handler.channel_number exchange routing_key
      mandatory immediate props body]

/-- `Channel.basic_consume`: synthesizes `"ctag" + str(counter)` when the
caller supplies no tag (or the empty string, which Python's `if not tag:`
also treats as absent), raises `DuplicateConsumerTag` if the tag is
already registered, registers the callback before the RPC, then performs
the RPC and returns the `consumer_tag` field of its result. -/
def basic_consume (st : ChannelState) (consumer : Nat)
    (consumer_tag : Option String) (connOutcome : Except PikaError Method) :
    ChannelState × Except PikaError (Option String) :=
  let synth := ("ctag" ++ Nat.repr st.next_consumer_tag, st.next_consumer_tag + 1)
  let p := match consumer_tag with
    | none => synth
    | some t => if t = "" then synth else (t, st.next_consumer_tag)
  let tag := p.1
  let st1 := { st with next_consumer_tag := p.2 }
  if (mapLookup st1.callbacks tag).isSome then
    (st1, .error (.DuplicateConsumerTag tag))
  else
    let st2 := { st1 with callbacks := mapInsert st1.callbacks tag consumer }
    match rpc st2.handler connOutcome with
    | .error e => (st2, .error e)
    | .ok m => (st2, .ok m.consumer_tag)

/-- `Channel.basic_cancel`: raises `UnknownConsumerTag` for an unregistered
tag, performs the RPC, and removes the callback only after it returns. -/
def basic_cancel (st : ChannelState) (consumer_tag : String)
    (connOutcome : Except PikaError Method) : ChannelState × Option PikaError :=
  if (mapLookup st.callbacks consumer_tag).isSome then
    match rpc st.handler connOutcome with
    | .error e => (st, some e)
    | .ok _ => ({ st with callbacks := mapErase st.callbacks consumer_tag }, none)
  else
    (st, some (.UnknownConsumerTag consumer_tag))

/-- Repeated `basic_consume` calls with no explicit tag, each completing
with the same successful connection outcome; returns the final state and
the per-call results in call order. -/
def consume_sequence (consumer : Nat) (ok : Method) :
    Nat → ChannelState → ChannelState × List (Except PikaError (Option String))
  | 0, st => (st, [])
  | k + 1, st =>
    let p := basic_consume st consumer none (.ok ok)
    let q := consume_sequence consumer ok k p.1
    (q.1, p.2 :: q.2)

/-- The association list obtained by storing `cbId` under every kind in
`ks` in order (the effect of a fully successful registration loop). -/
def registerAll (rm : List (MethodKind × Nat)) (cbId : Nat)
    (ks : List MethodKind) : List (MethodKind × Nat) :=
  ks.foldl (fun acc k => mapInsert acc k cbId) rm

/-! Helper lemmas about the association-list operations. -/

theorem mapLookup_mapInsert {α β : Type} [DecidableEq α]
    (l : List (α × β)) (k a : α) (v : β) :
    mapLookup (mapInsert l k v) a = if k = a then some v else mapLookup l a := by
  induction l with
  | nil => by_cases h : k = a <;> simp [mapInsert, mapLookup, h]
  | cons p rest ih =>
    obtain ⟨pk, pv⟩ := p
    by_cases hpk : pk = k
    · subst hpk
      by_cases ha : pk = a <;> simp [mapInsert, mapLookup, ha]
    · by_cases ha : pk = a
      · subst ha
        have hk : ¬ k = pk := fun hh => hpk hh.symm
        simp [mapInsert, mapLookup, hpk, hk]
      · simp [mapInsert, mapLookup, hpk, ha, ih]

theorem mapLookup_eq_none {α β : Type} [DecidableEq α]
    (l : List (α × β)) (key : α) (h : ∀ p ∈ l, p.1 ≠ key) :
    mapLookup l key = none := by
  induction l with
  | nil => rfl
  | cons p rest ih =>
    obtain ⟨pk, pv⟩ := p
    have h1 : pk ≠ key := h (pk, pv) (by simp)
    simp only [mapLookup, h1, if_false]
    exact ih fun q hq => h q (by simp [hq])

theorem mapInsert_eq_append {α β : Type} [DecidableEq α]
    (l : List (α × β)) (k : α) (v : β) (h : mapLookup l k = none) :
    mapInsert l k v = l ++ [(k, v)] := by
  induction l with
  | nil => rfl
  | cons p rest ih =>
    obtain ⟨pk, pv⟩ := p
    by_cases hpk : pk = k
    · simp [mapLookup, hpk] at h
    · simp only [mapLookup, hpk, if_false] at h
      simp [mapInsert, hpk, ih h]

/-! Injectivity of the decimal representation `Nat.repr`, needed to show
that freshly synthesized consumer tags never collide with earlier ones. -/

/-- Numeric value of a decimal digit character. -/
def digitVal (c : Char) : Nat := c.toNat - 48

/-- Value of a decimal digit string, most significant digit first. -/
def decValue (l : List Char) : Nat :=
  l.foldl (fun a c => 10 * a + digitVal c) 0

theorem toDigitsCore_append (b : Nat) :
    ∀ (f n : Nat) (ds : List Char),
      Nat.toDigitsCore b f n ds = Nat.toDigitsCore b f n [] ++ ds := by
  intro f
  induction f with
  | zero => intro n ds; simp [Nat.toDigitsCore]
  | succ f ih =>
    intro n ds
    simp only [Nat.toDigitsCore]
    by_cases h : n / b = 0
    · simp [h]
    · simp only [h, if_false]
      rw [ih (n / b) (Nat.digitChar (n % b) :: ds),
        ih (n / b) [Nat.digitChar (n % b)]]
      simp

theorem decValue_toDigitsCore :
    ∀ f n : Nat, n ≤ f → decValue (Nat.toDigitsCore 10 (f + 1) n []) = n := by
  intro f
  induction f with
  | zero =>
    intro n hn
    have h0 : n = 0 := Nat.le_zero.mp hn
    subst h0
    decide
  | succ f ih =>
    intro n hn
    have hunf : Nat.toDigitsCore 10 (f + 1 + 1) n []
        = if n / 10 = 0 then [Nat.digitChar (n % 10)]
          else Nat.toDigitsCore 10 (f + 1) (n / 10) [Nat.digitChar (n % 10)] := rfl
    rw [hunf]
    by_cases h : n / 10 = 0
    · rw [if_pos h]
      have hlt : n < 10 := by omega
      have hd : ∀ d, d < 10 → digitVal (Nat.digitChar d) = d := by decide
      calc decValue [Nat.digitChar (n % 10)]
          = digitVal (Nat.digitChar (n % 10)) := by simp [decValue]
        _ = n % 10 := hd (n % 10) (by omega)
        _ = n := Nat.mod_eq_of_lt hlt
    · rw [if_neg h]
      rw [toDigitsCore_append 10 (f + 1) (n / 10) [Nat.digitChar (n % 10)]]
      have hrec : decValue (Nat.toDigitsCore 10 (f + 1) (n / 10) []) = n / 10 :=
        ih (n / 10) (by omega)
      have hd : ∀ d, d < 10 → digitVal (Nat.digitChar d) = d := by decide
      have hstep :
          decValue (Nat.toDigitsCore 10 (f + 1) (n / 10) [] ++ [Nat.digitChar (n % 10)])
          = 10 * decValue (Nat.toDigitsCore 10 (f + 1) (n / 10) [])
            + digitVal (Nat.digitChar (n % 10)) := by
        simp [decValue, List.foldl_append]
      rw [hstep, hrec, hd (n % 10) (by omega)]
      omega

theorem decValue_repr (n : Nat) : decValue (Nat.repr n).data = n := by
  have h : (Nat.repr n).data = Nat.toDigitsCore 10 (n + 1) n [] := rfl
  rw [h]
  exact decValue_toDigitsCore n n (Nat.le_refl n)

theorem natRepr_injective {m n : Nat} (h : Nat.repr m = Nat.repr n) : m = n := by
  have h2 := congrArg (fun s => decValue s.data) h
  simpa [decValue_repr] using h2

theorem ctag_injective {i j : Nat}
    (h : "ctag" ++ Nat.repr i = "ctag" ++ Nat.repr j) : i = j := by
  have hd := congrArg String.data h
  rw [String.data_append, String.data_append] at hd
  have h1 := List.append_cancel_left hd
  have h2 := congrArg decValue h1
  rwa [decValue_repr, decValue_repr] at h2

/-! Concrete sample data used by witnesses and counterexamples. -/

/-- A non-content-bearing method kind. -/
def kindA : MethodKind := ⟨10, "A", false⟩

/-- A second non-content-bearing method kind. -/
def kindB : MethodKind := ⟨20, "B", false⟩

/-- A content-bearing method kind. -/
def kindC : MethodKind := ⟨30, "C", true⟩

/-- A sample method of kind `kindA`. -/
def mA : Method := { kind := kindA }

/-- A sample method of kind `kindB`. -/
def mB : Method := { kind := kindB }

/-- A sample content-bearing method. -/
def mC : Method := { kind := kindC }

/-- A freshly opened handler with no registered handlers or listeners. -/
def hOpen : HandlerState :=
  { frame_handler := .expectMethod, channel_close := none, async_map := [],
    reply_map := [], channel_state_change_event := [], channel_number := 1 }

/-- A sample close reason. -/
def closeReason : Method := { kind := ⟨40, "Channel.Close", false⟩ }

/-- The handler after its close reason has been set. -/
def hClosed : HandlerState := { hOpen with channel_close := some closeReason }

/-- A handler with one pending reply registered for `kindB`. -/
def sB : HandlerState := { hOpen with reply_map := [(kindB, 0)] }

/-- A handler with a pending reply for `kindA` and an async handler for
`kindB`, used to exercise all three dispatch branches. -/
def sDispatch : HandlerState :=
  { hOpen with reply_map := [(kindA, 7)], async_map := [(kindB, 3)] }

/-- Whether a `WaitOutcome` is termination by `ChannelClosed`. -/
def isClosedOutcome : WaitOutcome → Bool
  | .closed _ => true
  | _ => false

/-- Whenever one reassembler step produces a resolved triple, the
continuation it leaves behind is `expectMethod` and no exception was
raised: `finish` resets `self.frame_handler` and raises nothing. -/
theorem step_resolution_resets (c : Continuation) (f : Frame)
    (c' : Continuation) (r : Resolution) (e : Option PikaError)
    (h : reassembly_step c f = (c', some r, e)) :
    c' = .expectMethod ∧ e = none := by
  cases c <;> cases f <;>
    simp only [reassembly_step] at h <;>
    (try split at h) <;> (try split at h) <;>
    simp only [Prod.mk.injEq] at h <;>
    first
      | exact ⟨h.1.symm, h.2.2.symm⟩
      | exact absurd h.2.1 (by simp)

/-- C7: whenever the reassembler resolves a (method, properties, body)
triple, the continuation stored back into `frame_handler` is the
method-expecting state, no exception is raised, and the triple is
dispatched on the state already holding that reset continuation, so a
handler running during dispatch sees a clean reassembly state. -/
theorem c7_reset_before_dispatch (s : HandlerState) (f : Frame)
    (c' : Continuation) (r : Resolution) (e : Option PikaError)
    (h : reassembly_step s.frame_handler f = (c', some r, e)) :
    c' = .expectMethod ∧ e = none ∧
    handle_frame s f =
      ((handle_async { s with frame_handler := .expectMethod } r.method r.header r.body).1,
       (handle_async { s with frame_handler := .expectMethod } r.method r.header r.body).2,
       none) := by
  obtain ⟨hc, he⟩ := step_resolution_resets s.frame_handler f c' r e h
  subst hc he
  refine ⟨rfl, rfl, ?_⟩
  simp only [handle_frame, h]

/-- Witness for C7 at a concrete non-content method frame. -/
theorem c7_witness :
    reassembly_step hOpen.frame_handler (.method mA)
      = (.expectMethod, some ⟨mA, none, none⟩, none) ∧
    (Continuation.expectMethod = .expectMethod ∧ (none : Option PikaError) = none ∧
     handle_frame hOpen (.method mA) =
       ((handle_async { hOpen with frame_handler := .expectMethod } mA none none).1,
        (handle_async { hOpen with frame_handler := .expectMethod } mA none none).2,
        none)) :=
  ⟨by decide,
   c7_reset_before_dispatch hOpen (.method mA) .expectMethod ⟨mA, none, none⟩ none (by decide)⟩

/-- C6: dispatch of a resolved triple with method kind K.  A pending reply
for K wins unconditionally: the single-use callback is removed from
`reply_map` and then invoked with the method, which carries the
properties and body exactly when a header was present.  Otherwise a
registered async handler for K is invoked with the triple; otherwise the
whole connection is closed with the NOT_IMPLEMENTED code and a message
naming K. -/
theorem c6_dispatch_routing (s : HandlerState) (m : Method)
    (hdr : Option (Props × Nat)) (body : Option (List Nat)) :
    (∀ cb, mapLookup s.reply_map m.kind = some cb →
      handle_async s m hdr body =
        ({ s with reply_map := mapErase s.reply_map m.kind },
         [.replyInvoked cb (match hdr with
            | some (p, _) => set_content m p (body.getD [])
            | none => m)])) ∧
    (mapLookup s.reply_map m.kind = none →
      ∀ hID, mapLookup s.async_map m.kind = some hID →
        handle_async s m hdr body = (s, [.asyncInvoked hID m hdr body])) ∧
    (mapLookup s.reply_map m.kind = none →
      mapLookup s.async_map m.kind = none →
      handle_async s m hdr body =
        (s, [.connClose NOT_IMPLEMENTED
              ("Pika: method not implemented: " ++ m.kind.name)])) := by
  refine ⟨fun cb hcb => ?_, fun hn hID ha => ?_, fun hn ha => ?_⟩ <;>
    simp [handle_async, *]

/-- Witness for C6: all three dispatch branches at concrete states, with a
header present in the reply branch. -/
theorem c6_witness :
    handle_async sDispatch mA (some (⟨5⟩, 2)) (some [9]) =
      ({ sDispatch with reply_map := mapErase sDispatch.reply_map mA.kind },
       [.replyInvoked 7 (set_content mA ⟨5⟩ [9])]) ∧
    handle_async sDispatch mB none none = (sDispatch, [.asyncInvoked 3 mB none none]) ∧
    handle_async sDispatch mC none none =
      (sDispatch, [.connClose NOT_IMPLEMENTED
        ("Pika: method not implemented: " ++ mC.kind.name)]) :=
  ⟨(c6_dispatch_routing sDispatch mA (some (⟨5⟩, 2)) (some [9])).1 7 (by decide),
   (c6_dispatch_routing sDispatch mB none none).2.1 (by decide) 3 (by decide),
   (c6_dispatch_routing sDispatch mC none none).2.2 (by decide) (by decide)⟩

/-- C8: the close reason is write-once.  The first call to
`_set_channel_close` records the reason, releases the channel number to
the connection, and fires every registered lifecycle listener with
`isOpen = false`; any later call leaves the state (and hence the stored
reason) unchanged and fires nothing. -/
theorem c8_close_reason_write_once (s : HandlerState) (c : Method) :
    (s.channel_close = none →
      set_channel_close s c =
        ({ s with channel_close := some c },
         .resetChannel s.channel_number ::
           s.channel_state_change_event.map (fun h => .stateChange h false))) ∧
    (∀ r, s.channel_close = some r →
      set_channel_close s c = (s, []) ∧
      (set_channel_close s c).1.channel_close = some r) := by
  constructor
  · intro h
    simp [set_channel_close, h]
  · intro r h
    simp [set_channel_close, h]

/-- Witness for C8: a first close on a handler with two listeners, then a
second close attempt on the resulting closed handler. -/
theorem c8_witness :
    set_channel_close { hOpen with channel_state_change_event := [11, 12] } closeReason =
      ({ { hOpen with channel_state_change_event := [11, 12] } with
          channel_close := some closeReason },
       .resetChannel ({ hOpen with channel_state_change_event := [11, 12] }).channel_number ::
         ({ hOpen with channel_state_change_event := [11, 12] }).channel_state_change_event.map
           (fun h => .stateChange h false)) ∧
    (set_channel_close { hClosed with channel_state_change_event := [11, 12] } mA =
      ({ hClosed with channel_state_change_event := [11, 12] }, []) ∧
     (set_channel_close { hClosed with channel_state_change_event := [11, 12] } mA).1.channel_close
       = some closeReason) :=
  ⟨(c8_close_reason_write_once { hOpen with channel_state_change_event := [11, 12] }
      closeReason).1 (by decide),
   (c8_close_reason_write_once { hClosed with channel_state_change_event := [11, 12] }
      mA).2 closeReason (by decide)⟩

/-- Counterexample to C3 as stated: at a concrete overflowing body frame,
after `BodyTooLongError` is raised the continuation left in
`frame_handler` is still the body handler holding the accumulated count
and fragment list (now including the offending fragment) — the transient
reassembly state is not discarded on failure, and the continuation still
refers to it. -/
theorem c3_counterexample :
    reassembly_step (.expectBody mC ⟨0⟩ 1 0 []) (.body [7, 8])
      = (.expectBody mC ⟨0⟩ 1 2 [[7, 8]], none, some .BodyTooLongError) := by
  decide

/-- C3 as amended: on successful completion the reassembly state is
discarded (the continuation resets to `expectMethod`, which holds no
count or fragments); on `BodyTooLongError` the continuation remains the
body handler and retains the incremented count and the appended
fragments.  A reassembly violation still aborts only that channel's
in-flight assembly: the error is raised to the caller and no other
channel state is touched. -/
theorem c3_state_discard_on_success_only :
    (∀ (c : Continuation) (f : Frame) (c' : Continuation) (r : Resolution)
        (e : Option PikaError),
      reassembly_step c f = (c', some r, e) → c' = .expectMethod) ∧
    (∀ (m : Method) (p : Props) (size seen : Nat) (frags : List (List Nat))
        (frag : List Nat),
      ¬ seen + frag.length = size → size < seen + frag.length →
      reassembly_step (.expectBody m p size seen frags) (.body frag)
        = (.expectBody m p size (seen + frag.length) (frags ++ [frag]),
           none, some .BodyTooLongError)) := by
  constructor
  · intro c f c' r e h
    exact (step_resolution_resets c f c' r e h).1
  · intro m p size seen frags frag hne hgt
    simp [reassembly_step, hne, hgt]

/-- Witness for the amended C3: a completing fragment and an overflowing
fragment at concrete inputs. -/
theorem c3_witness :
    Continuation.expectMethod = .expectMethod ∧
    reassembly_step (.expectBody mC ⟨0⟩ 3 1 [[4]]) (.body [7, 8, 9])
      = (.expectBody mC ⟨0⟩ 3 4 [[4], [7, 8, 9]], none, some .BodyTooLongError) :=
  ⟨(c3_state_discard_on_success_only).1 (.expectBody mC ⟨0⟩ 2 0 []) (.body [7, 8])
      .expectMethod ⟨mC, some (⟨0⟩, 2), some [7, 8]⟩ none (by decide),
   (c3_state_discard_on_success_only).2 mC ⟨0⟩ 3 1 [[4]] [7, 8, 9]
      (by decide) (by decide)⟩

/-- Storing a callback under kinds that are all absent from the map (and
mutually distinct) leaves every pre-existing entry untouched. -/
theorem registerAll_preserves (rm : List (MethodKind × Nat)) (cbId : Nat)
    (ks : List MethodKind) (hnd : ks.Nodup)
    (hfresh : ∀ a ∈ ks, mapLookup rm a = none) :
    ∀ a v, mapLookup rm a = some v →
      mapLookup (registerAll rm cbId ks) a = some v := by
  induction ks generalizing rm with
  | nil => intro a v h; exact h
  | cons x ks ih =>
    intro a v h
    have hx : mapLookup rm x = none := hfresh x (by simp)
    have hax : ¬ x = a := by
      intro hh; subst hh; rw [hx] at h; cases h
    simp only [registerAll, List.foldl_cons]
    have hgoal := ih (mapInsert rm x cbId) (List.Nodup.of_cons hnd) ?_ a v ?_
    · exact hgoal
    · intro b hb
      rw [mapLookup_mapInsert]
      have hbx : ¬ x = b := by
        intro hh; subst hh
        exact (List.nodup_cons.mp hnd).1 hb
      rw [if_neg hbx]
      exact hfresh b (by simp [hb])
    · rw [mapLookup_mapInsert, if_neg hax]
      exact h

/-- The registration loop of `wait_for_reply` stops at the first kind that
is already pending (in the original map or registered by an earlier
iteration of the same call), raising `RecursiveOperationDetected` with
that kind's name and leaving the kinds before it registered. -/
theorem wait_register_stops (cbId : Nat) (k : MethodKind) (rest : List MethodKind) :
    ∀ (pre : List MethodKind) (s : HandlerState), pre.Nodup →
      (∀ a ∈ pre, mapLookup s.reply_map a = none) →
      ((mapLookup s.reply_map k).isSome ∨ k ∈ pre) →
      wait_register s cbId (pre ++ k :: rest)
        = ({ s with reply_map := registerAll s.reply_map cbId pre },
           some (.RecursiveOperationDetected k.name)) := by
  intro pre
  induction pre with
  | nil =>
    intro s _ _ hpend
    rcases hpend with hp | hp
    · simp only [List.nil_append, wait_register, hp, if_true]
      rfl
    · cases hp
  | cons x pre ih =>
    intro s hnd hfresh hpend
    have hx : mapLookup s.reply_map x = none := hfresh x (by simp)
    simp only [List.cons_append, wait_register, hx, Option.isSome_none,
      Bool.false_eq_true, if_false, List.append_eq]
    rw [ih { s with reply_map := mapInsert s.reply_map x cbId }
      (List.Nodup.of_cons hnd) ?_ ?_]
    · rfl
    · intro a ha
      show mapLookup (mapInsert s.reply_map x cbId) a = none
      rw [mapLookup_mapInsert]
      have hxa : ¬ x = a := by
        intro hh; subst hh
        exact (List.nodup_cons.mp hnd).1 ha
      rw [if_neg hxa]
      exact hfresh a (by simp [ha])
    · rcases hpend with hp | hp
      · left
        show (mapLookup (mapInsert s.reply_map x cbId) k).isSome
        rw [mapLookup_mapInsert]
        by_cases hk : x = k
        · simp [hk]
        · rw [if_neg hk]; exact hp
      · rcases List.mem_cons.mp hp with hk | hk
        · left
          show (mapLookup (mapInsert s.reply_map x cbId) k).isSome
          subst hk
          rw [mapLookup_mapInsert, if_pos rfl]
          rfl
        · right; exact hk

/-- Counterexample to C2 as stated: with a reply for `kindB` already
pending, a wait on the acceptable kinds `[kindA, kindB]` does raise
`RecursiveOperationDetected` naming B, but `kindA` — processed before the
offending kind — has been registered and stays registered: registration
is not all-or-nothing. -/
theorem c2_counterexample :
    wait_register sB 1 [kindA, kindB]
      = ({ sB with reply_map := [(kindB, 0), (kindA, 1)] },
         some (.RecursiveOperationDetected "B")) := by
  decide

/-- C2 as amended: if an acceptable reply kind is already pending — in the
map before the call, or registered by an earlier iteration of the same
call — the call fails with `RecursiveOperationDetected` naming the first
such kind in list order; the acceptable kinds preceding it have been
registered and remain registered (registration is sequential, not
all-or-nothing), while every registration that existed before the call,
in particular the earlier RPC's, is left intact. -/
theorem c2_registration_not_atomic (s : HandlerState) (cbId : Nat)
    (pre : List MethodKind) (k : MethodKind) (rest : List MethodKind)
    (hnd : pre.Nodup)
    (hfresh : ∀ a ∈ pre, mapLookup s.reply_map a = none)
    (hpend : (mapLookup s.reply_map k).isSome ∨ k ∈ pre) :
    wait_register s cbId (pre ++ k :: rest)
      = ({ s with reply_map := registerAll s.reply_map cbId pre },
         some (.RecursiveOperationDetected k.name)) ∧
    ∀ a v, mapLookup s.reply_map a = some v →
      mapLookup (registerAll s.reply_map cbId pre) a = some v :=
  ⟨wait_register_stops cbId k rest pre s hnd hfresh hpend,
   registerAll_preserves s.reply_map cbId pre hnd hfresh⟩

/-- Witness for the amended C2 at the concrete state of the
counterexample: the failure names B, A stays registered, and the earlier
RPC's entry for B is untouched. -/
theorem c2_witness :
    wait_register sB 1 ([kindA] ++ kindB :: [])
      = ({ sB with reply_map := registerAll sB.reply_map 1 [kindA] },
         some (.RecursiveOperationDetected kindB.name)) ∧
    mapLookup (registerAll sB.reply_map 1 [kindA]) kindB = some 0 :=
  ⟨(c2_registration_not_atomic sB 1 [kindA] kindB [] (by decide) (by decide)
      (Or.inl (by decide))).1,
   (c2_registration_not_atomic sB 1 [kindA] kindB [] (by decide) (by decide)
      (Or.inl (by decide))).2 kindB 0 (by decide)⟩

/-- When every drain in the trace leaves the reply slot empty and the
channel is closed at entry or becomes closed at some drain, the
`wait_for_reply` loop terminates with `ChannelClosed` instead of polling
forever. -/
theorem wait_loop_terminates_closed :
    ∀ (trace : List (HandlerState × Option Method)) (s : HandlerState),
      (∀ q ∈ trace, q.2 = none) →
      (s.channel_close.isSome ∨ ∃ q ∈ trace, q.1.channel_close.isSome) →
      isClosedOutcome (wait_loop s trace) = true := by
  intro trace
  induction trace with
  | nil =>
    intro s _ hcl
    rcases hcl with h | ⟨q, hq, _⟩
    · rcases hs : s.channel_close with _ | c
      · rw [hs] at h; cases h
      · simp [wait_loop, hs, isClosedOutcome]
    · cases hq
  | cons q trace ih =>
    intro s hnone hcl
    obtain ⟨s', r⟩ := q
    rcases hs : s.channel_close with _ | c
    · have h2 : r = none := hnone (s', r) (by simp)
      subst h2
      simp only [wait_loop, hs]
      apply ih
      · intro x hx; exact hnone x (by simp [hx])
      · rcases hcl with h | ⟨x, hx, hxc⟩
        · rw [hs] at h; cases h
        · rcases List.mem_cons.mp hx with hq | hq
          · left; rw [hq] at hxc; exact hxc
          · right; exact ⟨x, hq, hxc⟩
    · simp [wait_loop, hs, isClosedOutcome]

/-- Counterexample to C1 as stated: on a channel whose close reason is
set, `basic_publish` raises nothing — its embedding is total, performs no
closed-channel check, and hands the publish method straight to the
connection's send operation. -/
theorem c1_counterexample :
    basic_publish { handler := hClosed, callbacks := [], next_consumer_tag := 0 }
        "ex" "rk" [1, 2] none false false
      = [.sendPublish 1 "ex" "rk" false false { id := 0 } [1, 2]] := by
  decide

/-- C1 as amended: after the close reason is set, `_rpc` raises
`ChannelClosed`; `basic_consume` raises it once its tag is accepted;
`basic_cancel` raises it for a registered tag; a `wait_for_reply` loop
already in progress terminates with `ChannelClosed` rather than blocking
forever; but `basic_publish` performs no closed-channel check and sends
the publish method regardless. -/
theorem c1_closed_channel_operations :
    (∀ (h : HandlerState) (c : Method) (out : Except PikaError Method),
      h.channel_close = some c → rpc h out = .error (.ChannelClosed c)) ∧
    (∀ (st : ChannelState) (c : Method) (consumer : Nat) (t : String)
        (out : Except PikaError Method),
      st.handler.channel_close = some c → ¬ t = "" →
      mapLookup st.callbacks t = none →
      (basic_consume st consumer (some t) out).2 = .error (.ChannelClosed c)) ∧
    (∀ (st : ChannelState) (c : Method) (t : String) (out : Except PikaError Method),
      st.handler.channel_close = some c →
      (mapLookup st.callbacks t).isSome →
      (basic_cancel st t out).2 = some (.ChannelClosed c)) ∧
    (∀ (st : ChannelState) (ex rk : String) (body : List Nat) (props : Option Props)
        (mand imm : Bool),
      basic_publish st ex rk body props mand imm
        = [.sendPublish st.handler.channel_number ex rk mand imm
             (props.getD default) body]) ∧
    (∀ (trace : List (HandlerState × Option Method)) (s : HandlerState),
      (∀ q ∈ trace, q.2 = none) →
      (s.channel_close.isSome ∨ ∃ q ∈ trace, q.1.channel_close.isSome) →
      isClosedOutcome (wait_loop s trace) = true) := by
  refine ⟨?_, ?_, ?_, ?_, wait_loop_terminates_closed⟩
  · intro h c out hc
    simp [rpc, hc]
  · intro st c consumer t out hc ht hl
    simp [basic_consume, ht, hl, rpc, hc]
  · intro st c t out hc hl
    simp [basic_cancel, hl, rpc, hc]
  · intro st ex rk body props mand imm
    simp [basic_publish]

/-- Witness for the amended C1 at a concrete closed channel with one
registered consumer, including a wait whose channel closes mid-trace. -/
theorem c1_witness :
    rpc hClosed (.ok mA) = .error (.ChannelClosed closeReason) ∧
    (basic_consume { handler := hClosed, callbacks := [("t0", 5)], next_consumer_tag := 0 }
        7 (some "w") (.ok mA)).2 = .error (.ChannelClosed closeReason) ∧
    (basic_cancel { handler := hClosed, callbacks := [("t0", 5)], next_consumer_tag := 0 }
        "t0" (.ok mA)).2 = some (.ChannelClosed closeReason) ∧
    basic_publish { handler := hClosed, callbacks := [("t0", 5)], next_consumer_tag := 0 }
        "e" "k" [9] none true false
      = [.sendPublish 1 "e" "k" true false { id := 0 } [9]] ∧
    isClosedOutcome (wait_loop hOpen [(hClosed, none)]) = true :=
  ⟨c1_closed_channel_operations.1 hClosed closeReason (.ok mA) (by decide),
   c1_closed_channel_operations.2.1
     { handler := hClosed, callbacks := [("t0", 5)], next_consumer_tag := 0 }
     closeReason 7 "w" (.ok mA) (by decide) (by decide) (by decide),
   c1_closed_channel_operations.2.2.1
     { handler := hClosed, callbacks := [("t0", 5)], next_consumer_tag := 0 }
     closeReason "t0" (.ok mA) (by decide) (by decide),
   c1_closed_channel_operations.2.2.2.1
     { handler := hClosed, callbacks := [("t0", 5)], next_consumer_tag := 0 }
     "e" "k" [9] none true false,
   c1_closed_channel_operations.2.2.2.2 [(hClosed, none)] hOpen
     (by decide) (Or.inr ⟨(hClosed, none), by simp, by decide⟩)⟩

/-- Running the reassembler over a concatenation composes, provided the
first part raised no exception. -/
theorem run_reassembly_append (l1 : List Frame) :
    ∀ (c : Continuation) (l2 : List Frame),
      (run_reassembly c l1).2.2 = none →
      run_reassembly c (l1 ++ l2)
        = ((run_reassembly (run_reassembly c l1).1 l2).1,
           (run_reassembly c l1).2.1 ++ (run_reassembly (run_reassembly c l1).1 l2).2.1,
           (run_reassembly (run_reassembly c l1).1 l2).2.2) := by
  induction l1 with
  | nil => intro c l2 _; simp [run_reassembly]
  | cons f fs ih =>
    intro c l2 h
    rcases hs : reassembly_step c f with ⟨c', r, e⟩
    cases e with
    | some err =>
      simp only [run_reassembly, hs] at h
      exact absurd h (by simp)
    | none =>
      simp only [run_reassembly, hs] at h
      simp only [List.cons_append, run_reassembly, hs, List.append_eq,
        ih c' l2 h, List.append_assoc]

/-- Feeding body fragments whose running totals all stay strictly below
the declared size accumulates them in the continuation: count increased,
fragments appended in arrival order, nothing resolved, nothing raised. -/
theorem run_body_accum (m : Method) (p : Props) (size : Nat) :
    ∀ (gs : List (List Nat)) (seen : Nat) (frags : List (List Nat)),
      (∀ j, j < gs.length → seen + ((gs.take (j + 1)).map List.length).sum < size) →
      run_reassembly (.expectBody m p size seen frags) (gs.map .body)
        = (.expectBody m p size (seen + (gs.map List.length).sum) (frags ++ gs),
           [], none) := by
  intro gs
  induction gs with
  | nil => intro seen frags _; simp [run_reassembly]
  | cons g gs ih =>
    intro seen frags hlt
    have h1 : seen + g.length < size := by
      have h0 := hlt 0 (by simp)
      simpa using h0
    have hne : ¬ (seen + g.length = size) := by omega
    have hngt : ¬ (size < seen + g.length) := by omega
    simp only [List.map_cons, run_reassembly, reassembly_step, hne, if_false, hngt]
    rw [ih (seen + g.length) (frags ++ [g]) ?_]
    · simp [List.append_assoc, Nat.add_assoc]
    · intro j hj
      have h2 := hlt (j + 1) (by simpa using Nat.succ_lt_succ hj)
      simp only [List.take_succ_cons, List.map_cons, List.sum_cons] at h2
      omega

/-- C4: the overflow check runs on each arriving fragment.  If the first
`k` fragments keep the running total strictly below the declared size and
the `(k+1)`-st pushes it past, then processing the first `k` body frames
raises nothing and resolves nothing, while processing through the
`(k+1)`-st raises `BodyTooLongError` at exactly that frame. -/
theorem c4_overflow_at_exact_frame (m : Method) (p : Props) (size : Nat)
    (fs : List (List Nat)) (k : Nat) (hk : k < fs.length)
    (hbefore : ∀ j, j < k → ((fs.take (j + 1)).map List.length).sum < size)
    (hover : size < ((fs.take (k + 1)).map List.length).sum) :
    run_reassembly (.expectBody m p size 0 []) ((fs.take k).map .body)
      = (.expectBody m p size ((fs.take k).map List.length).sum (fs.take k),
         [], none) ∧
    run_reassembly (.expectBody m p size 0 []) ((fs.take (k + 1)).map .body)
      = (.expectBody m p size ((fs.take (k + 1)).map List.length).sum (fs.take (k + 1)),
         [], some .BodyTooLongError) := by
  have hside : ∀ j, j < (fs.take k).length →
      0 + (((fs.take k).take (j + 1)).map List.length).sum < size := by
    intro j hj
    rw [List.length_take] at hj
    have hjk : j < k := lt_of_lt_of_le hj (min_le_left k fs.length)
    rw [List.take_take]
    have hmin : min (j + 1) k = j + 1 := by omega
    rw [hmin, Nat.zero_add]
    exact hbefore j hjk
  have hA := run_body_accum m p size (fs.take k) 0 [] hside
  rw [Nat.zero_add, List.nil_append] at hA
  refine ⟨hA, ?_⟩
  have hget : fs[k]? = some fs[k] := List.getElem?_eq_getElem hk
  have hsplit : fs.take (k + 1) = fs.take k ++ [fs[k]] := by
    rw [List.take_succ, hget]
    rfl
  have hsum : ((fs.take (k + 1)).map List.length).sum
      = ((fs.take k).map List.length).sum + (fs[k]).length := by
    rw [hsplit, List.map_append, List.sum_append]
    simp
  have hover' : size < ((fs.take k).map List.length).sum + (fs[k]).length := by
    rw [hsum] at hover
    exact hover
  have hne : ¬ (((fs.take k).map List.length).sum + (fs[k]).length = size) := by omega
  rw [hsplit, List.map_append,
    run_reassembly_append ((fs.take k).map .body) _ _ (by rw [hA]), hA]
  simp only [List.map_cons, List.map_nil, run_reassembly, reassembly_step, hne,
    if_false, hover', if_true]
  simp [List.map_append, List.sum_append]
  rw [← List.map_take, ← List.map_take]
  omega

/-- Witness for C4 at a concrete fragment list: declared size 3,
fragments of lengths 2 and 2, overflow detected at the second frame and
not at the first. -/
theorem c4_witness :
    run_reassembly (.expectBody mC ⟨0⟩ 3 0 []) (([[1, 2], [3, 4]].take 1).map .body)
      = (.expectBody mC ⟨0⟩ 3 (([[1, 2], [3, 4]].take 1).map List.length).sum
           ([[1, 2], [3, 4]].take 1), [], none) ∧
    run_reassembly (.expectBody mC ⟨0⟩ 3 0 []) (([[1, 2], [3, 4]].take 2).map .body)
      = (.expectBody mC ⟨0⟩ 3 (([[1, 2], [3, 4]].take 2).map List.length).sum
           ([[1, 2], [3, 4]].take 2), [], some .BodyTooLongError) :=
  c4_overflow_at_exact_frame mC ⟨0⟩ 3 [[1, 2], [3, 4]] 1 (by decide)
    (by decide) (by decide)

/-- Feeding exactly one content body: fragments whose proper-prefix totals
stay below the declared size and whose full total reaches it exactly
resolve at the final fragment, delivering the concatenated body and
returning to the method-awaiting state. -/
theorem run_body_complete (m : Method) (p : Props) (size : Nat)
    (fs : List (List Nat))
    (hsum : (fs.map List.length).sum = size)
    (hpre : ∀ j, j < fs.length → ((fs.take j).map List.length).sum < size)
    (hne : fs ≠ []) :
    run_reassembly (.expectBody m p size 0 []) (fs.map .body)
      = (.expectMethod, [⟨m, some (p, size), some fs.flatten⟩], none) := by
  rcases List.eq_nil_or_concat fs with rfl | ⟨init, l, rfl⟩
  · exact absurd rfl hne
  · simp only [List.concat_eq_append] at hsum hpre hne ⊢
    have hside : ∀ j, j < init.length →
        0 + ((init.take (j + 1)).map List.length).sum < size := by
      intro j hj
      have hj1 : j + 1 ≤ init.length := hj
      have htk : (init ++ [l]).take (j + 1) = init.take (j + 1) :=
        List.take_append_of_le_length hj1
      have := hpre (j + 1) (by simp; omega)
      rw [htk] at this
      omega
    have hA := run_body_accum m p size init 0 [] hside
    rw [Nat.zero_add, List.nil_append] at hA
    have hS : (init.map List.length).sum + l.length = size := by
      rw [← hsum]
      simp
    rw [List.map_append,
      run_reassembly_append (init.map .body) _ _ (by rw [hA]), hA]
    simp only [List.map_cons, List.map_nil, run_reassembly, reassembly_step, hS,
      if_true]
    simp

/-- C5: well-formed frame sequences.  A non-content method frame alone
resolves immediately with null properties and body, ending in the
method-awaiting state.  A content-bearing method frame followed by a
header and body fragments totalling exactly the declared size (each
proper prefix staying strictly below it) ends in the method-awaiting
state after exactly those frames, resolving once with the body equal to
the concatenation of the fragments in arrival order; in particular a
declared size of zero resolves immediately after the header. -/
theorem c5_wellformed_reassembly :
    (∀ m : Method, m.kind.hasContent = false →
      run_reassembly .expectMethod [.method m]
        = (.expectMethod, [⟨m, none, none⟩], none)) ∧
    (∀ (m : Method) (p : Props) (size : Nat) (fs : List (List Nat)),
      m.kind.hasContent = true →
      (fs.map List.length).sum = size →
      (∀ j, j < fs.length → ((fs.take j).map List.length).sum < size) →
      run_reassembly .expectMethod (.method m :: .header p size :: fs.map .body)
        = (.expectMethod, [⟨m, some (p, size), some fs.flatten⟩], none)) := by
  constructor
  · intro m h
    simp [run_reassembly, reassembly_step, h]
  · intro m p size fs hcontent hsum hpre
    rcases hfs : fs with _ | ⟨g, gs⟩
    · subst hfs
      have hsz : size = 0 := by simpa using hsum.symm
      subst hsz
      simp [run_reassembly, reassembly_step, hcontent]
    · rw [← hfs]
      have hlen : 0 < fs.length := by rw [hfs]; simp
      have hsz : ¬ (size = 0) := by
        have := hpre 0 hlen
        simp at this
        omega

      have h2 : run_reassembly .expectMethod [.method m, .header p size]
          = (.expectBody m p size 0 [], [], none) := by
        simp [run_reassembly, reassembly_step, hcontent, hsz]
      have happ := run_reassembly_append [.method m, .header p size]
        .expectMethod (fs.map .body) (by rw [h2])
      have hshape : Frame.method m :: Frame.header p size :: fs.map .body
          = [Frame.method m, Frame.header p size] ++ fs.map .body := rfl
      rw [hshape, happ, h2]
      rw [run_body_complete m p size fs hsum hpre (by rw [hfs]; simp)]
      simp

/-- Witness for C5: a concrete non-content method, and a concrete
content-bearing sequence with declared size 3 split over fragments
`[1, 2]` and `[3]`. -/
theorem c5_witness :
    run_reassembly .expectMethod [.method mA]
      = (.expectMethod, [⟨mA, none, none⟩], none) ∧
    run_reassembly .expectMethod
        (.method mC :: .header ⟨0⟩ 3 :: [[1, 2], [3]].map .body)
      = (.expectMethod,
         [⟨mC, some (⟨0⟩, 3), some [[1, 2], [3]].flatten⟩], none) :=
  ⟨c5_wellformed_reassembly.1 mA (by decide),
   c5_wellformed_reassembly.2 mC ⟨0⟩ 3 [[1, 2], [3]] (by decide) (by decide)
     (by decide)⟩

/-- Invariant of a run of tagless `basic_consume` calls: starting from a
counter value `n` with exactly the tags `ctag0 … ctag(n-1)` registered,
`k` further calls succeed, extending the registrations to
`ctag0 … ctag(n+k-1)` in order. -/
theorem consume_sequence_invariant (consumer : Nat) (ok : Method) :
    ∀ (k n : Nat) (h : HandlerState), h.channel_close = none →
      consume_sequence consumer ok k
        { handler := h,
          callbacks := (List.range n).map (fun i => ("ctag" ++ Nat.repr i, consumer)),
          next_consumer_tag := n }
        = ({ handler := h,
             callbacks := (List.range (n + k)).map
               (fun i => ("ctag" ++ Nat.repr i, consumer)),
             next_consumer_tag := n + k },
           List.replicate k (.ok ok.consumer_tag)) := by
  intro k
  induction k with
  | zero => intro n h hopen; simp [consume_sequence]
  | succ k ih =>
    intro n h hopen
    have hfresh : mapLookup
        ((List.range n).map (fun i => ("ctag" ++ Nat.repr i, consumer)))
        ("ctag" ++ Nat.repr n) = none := by
      apply mapLookup_eq_none
      intro q hq
      simp only [List.mem_map, List.mem_range] at hq
      obtain ⟨i, hi, rfl⟩ := hq
      intro he
      have := ctag_injective he
      omega
    have hone : basic_consume
        { handler := h,
          callbacks := (List.range n).map (fun i => ("ctag" ++ Nat.repr i, consumer)),
          next_consumer_tag := n } consumer none (.ok ok)
        = ({ handler := h,
             callbacks := (List.range (n + 1)).map
               (fun i => ("ctag" ++ Nat.repr i, consumer)),
             next_consumer_tag := n + 1 },
           .ok ok.consumer_tag) := by
      simp only [basic_consume, hfresh, Option.isSome_none, Bool.false_eq_true,
        if_false, rpc, hopen]
      rw [mapInsert_eq_append _ _ _ hfresh, List.range_succ, List.map_append]
      simp
    simp only [consume_sequence, hone]
    rw [ih (n + 1) h hopen]
    have harith : n + 1 + k = n + (k + 1) := by omega
    rw [harith]
    simp [List.replicate_succ]

/-- C9: on an otherwise empty facade, tagless `consume` calls synthesize
the tags ctag0, ctag1, ctag2, … in call order, each call succeeding and
registering its callback under that tag; and a `consume` call supplying a
(non-empty) tag that is already registered raises `DuplicateConsumerTag`
and leaves the state, in particular the callback mapping, unchanged.
(The empty string is excluded because `if not tag:` treats it as an
absent tag, and no facade operation can ever register it.) -/
theorem c9_consumer_tag_synthesis :
    (∀ (h : HandlerState), h.channel_close = none →
      ∀ (consumer : Nat) (ok : Method) (k : Nat),
      consume_sequence consumer ok k (initialFacade h)
        = ({ handler := h,
             callbacks := (List.range k).map
               (fun i => ("ctag" ++ Nat.repr i, consumer)),
             next_consumer_tag := k },
           List.replicate k (.ok ok.consumer_tag))) ∧
    (∀ (st : ChannelState) (consumer : Nat) (t : String)
        (out : Except PikaError Method),
      ¬ t = "" → (mapLookup st.callbacks t).isSome →
      basic_consume st consumer (some t) out
        = (st, .error (.DuplicateConsumerTag t))) := by
  constructor
  · intro h hopen consumer ok k
    have hinv := consume_sequence_invariant consumer ok k 0 h hopen
    simpa [initialFacade] using hinv
  · intro st consumer t out ht hl
    simp only [basic_consume, ht, if_false, hl, if_true]

/-- Witness for C9: three tagless calls from a fresh facade, and a
duplicate-tag call on a facade with `"t0"` registered. -/
theorem c9_witness :
    consume_sequence 7 { kind := kindB, consumer_tag := some "srv" } 3
        (initialFacade hOpen)
      = ({ handler := hOpen,
           callbacks := (List.range 3).map (fun i => ("ctag" ++ Nat.repr i, 7)),
           next_consumer_tag := 3 },
         List.replicate 3 (.ok (some "srv"))) ∧
    basic_consume { handler := hOpen, callbacks := [("t0", 5)], next_consumer_tag := 2 }
        9 (some "t0") (.ok mA)
      = ({ handler := hOpen, callbacks := [("t0", 5)], next_consumer_tag := 2 },
         .error (.DuplicateConsumerTag "t0")) :=
  ⟨c9_consumer_tag_synthesis.1 hOpen (by decide) 7
     { kind := kindB, consumer_tag := some "srv" } 3,
   c9_consumer_tag_synthesis.2
     { handler := hOpen, callbacks := [("t0", 5)], next_consumer_tag := 2 }
     9 "t0" (.ok mA) (by decide) (by decide)⟩

/-- C10: when `basic_consume` accepts the tag, registers the callback,
and the subsequent RPC fails with any exception, the registration
survives: the returned state still maps the tag to the callback — there
is no rollback on error.  Stated for a caller-supplied tag and for a
synthesized one. -/
theorem c10_no_rollback_on_rpc_failure :
    (∀ (st : ChannelState) (consumer : Nat) (t : String)
        (out : Except PikaError Method) (e : PikaError),
      ¬ t = "" → mapLookup st.callbacks t = none →
      rpc st.handler out = .error e →
      basic_consume st consumer (some t) out
        = ({ st with callbacks := mapInsert st.callbacks t consumer }, .error e) ∧
      mapLookup (mapInsert st.callbacks t consumer) t = some consumer) ∧
    (∀ (st : ChannelState) (consumer : Nat)
        (out : Except PikaError Method) (e : PikaError),
      mapLookup st.callbacks ("ctag" ++ Nat.repr st.next_consumer_tag) = none →
      rpc st.handler out = .error e →
      basic_consume st consumer none out
        = ({ st with
              callbacks := mapInsert st.callbacks
                ("ctag" ++ Nat.repr st.next_consumer_tag) consumer,
              next_consumer_tag := st.next_consumer_tag + 1 }, .error e) ∧
      mapLookup
          (mapInsert st.callbacks ("ctag" ++ Nat.repr st.next_consumer_tag) consumer)
          ("ctag" ++ Nat.repr st.next_consumer_tag) = some consumer) := by
  constructor
  · intro st consumer t out e ht hl hrpc
    constructor
    · simp [basic_consume, ht, hl, hrpc]
    · rw [mapLookup_mapInsert, if_pos rfl]
  · intro st consumer out e hl hrpc
    constructor
    · simp [basic_consume, hl, hrpc]
    · rw [mapLookup_mapInsert, if_pos rfl]

/-- Witness for C10: a consume on a closed channel — the RPC fails with
`ChannelClosed`, yet the callback stays registered under the tag. -/
theorem c10_witness :
    basic_consume { handler := hClosed, callbacks := [], next_consumer_tag := 0 }
        7 (some "w") (.ok mA)
      = ({ handler := hClosed, callbacks := mapInsert [] "w" 7, next_consumer_tag := 0 },
         .error (.ChannelClosed closeReason)) ∧
    mapLookup (mapInsert ([] : List (String × Nat)) "w" 7) "w" = some 7 :=
  c10_no_rollback_on_rpc_failure.1
    { handler := hClosed, callbacks := [], next_consumer_tag := 0 }
    7 "w" (.ok mA) (.ChannelClosed closeReason) (by decide) (by decide) (by rfl)

end Pika
